import Mathlib

/-!
Shallow embedding of the parallel hyperparameter grid-search program
(`calibrate.go`, `regression/regression.go`, `data/data.go`).

Modelling conventions:
* Go `float64` values are embedded as `ℚ` (exact rationals); Go's
  `math.MaxFloat64` sentinel is embedded as its exact rational value
  `mathMaxFloat64 = (2^53 - 1) * 2^971`.
* Go slices are `List ℚ`; out-of-range indexing inside the regression
  loops is modelled with `getD` (in-contract calls never hit the default).
* A Go function that can panic (indexing `arr[0]` of an empty slice in
  `MinMax`) is embedded with `Option`, `none` marking the panic.
* The candidate-value strings fed to `strconv.ParseFloat` are embedded at
  the parse boundary as `Option ℚ`: `some v` is a string that parses to
  `v`, `none` is an unparsable string (Go's `ParseFloat` then returns `0`
  together with an error that the code discards).
-/

namespace GridSearch

/-- `data.InputData`: two ordered sequences of reals, `X` independent,
`Y` dependent. -/
structure InputData where
  X : List ℚ
  Y : List ℚ
  deriving DecidableEq

/-- `regression.Parameters`: intercept `Mu` and slope `Beta`. -/
structure Parameters where
  Mu : ℚ
  Beta : ℚ
  deriving DecidableEq, Inhabited

/-- `regression.Forecast`: `predicted[i] = beta * x[i] + mu`. -/
def Forecast (mu beta : ℚ) (x : List ℚ) : List ℚ :=
  x.map (fun xi => beta * xi + mu)

/-- `regression.CalcMSE`: sum of squared residuals over the indices of
`predicted`, divided by `len(predicted)`. -/
def CalcMSE (predicted actual : List ℚ) : ℚ :=
  ((List.range predicted.length).map
      (fun i => (predicted.getD i 0 - actual.getD i 0) ^ 2)).sum
    / (predicted.length : ℚ)

/-- `regression.calcGradientBeta`: `-(2/n) * sum((Y[i]-pred[i]) * X[i])`. -/
def calcGradientBeta (predicted : List ℚ) (d : InputData) : ℚ :=
  -(2 * ((List.range predicted.length).map
      (fun i => (d.Y.getD i 0 - predicted.getD i 0) * d.X.getD i 0)).sum
    / (predicted.length : ℚ))

/-- `regression.calcGradientMu`: `-(2/n) * sum(actual[i]-pred[i])`. -/
def calcGradientMu (predicted actual : List ℚ) : ℚ :=
  -(2 * ((List.range predicted.length).map
      (fun i => actual.getD i 0 - predicted.getD i 0)).sum
    / (predicted.length : ℚ))

/-- `regression.UpdateParams`, statement by statement: one prediction pass
from the incoming parameters, then `Mu` is mutated, then `Beta` is mutated
(using the prediction computed before either mutation). -/
def UpdateParams (parameters : Parameters) (d : InputData) (alpha : ℚ) : Parameters :=
  let predicted := Forecast parameters.Mu parameters.Beta d.X
  let p1 : Parameters := { parameters with
    Mu := parameters.Mu - alpha * calcGradientMu predicted d.Y }
  { p1 with Beta := p1.Beta - alpha * calcGradientBeta predicted d }

/-- The spec's wording of the gradient-descent step (§4.4): both partial
derivatives come from the same prediction pass and both updates are applied
simultaneously to the incoming parameter pair. -/
def gradientDescentStepSimultaneous (parameters : Parameters) (d : InputData) (alpha : ℚ) :
    Parameters :=
  let predicted := Forecast parameters.Mu parameters.Beta d.X
  { Mu := parameters.Mu - alpha * calcGradientMu predicted d.Y
    Beta := parameters.Beta - alpha * calcGradientBeta predicted d }

/-- `regression.Normalize`: rescales `X` by `(x - minX) / (maxX - minX)`,
leaves `Y` untouched.  The division is performed unconditionally. -/
def Normalize (rawData : InputData) (minX maxX : ℚ) : InputData :=
  { X := rawData.X.map (fun xi => (xi - minX) / (maxX - minX))
    Y := rawData.Y }

/-- `regression.UnNormalize`: the code sets
`Beta = Beta / (maxX - minX) - minX` and leaves `Mu` untouched (the `d`
argument is unused, as in the source). -/
def UnNormalize (parameters : Parameters) (d : InputData) (minX maxX : ℚ) : Parameters :=
  { parameters with Beta := parameters.Beta / (maxX - minX) - minX }

/-- `regression.MinMax`: the code reads `arr[0]` first, which panics on an
empty slice — modelled as `none`; otherwise it scans the slice keeping the
running min and max and returns `(min, max)`. -/
def MinMax (arr : List ℚ) : Option (ℚ × ℚ) :=
  match arr with
  | [] => none
  | a :: _ =>
      some (arr.foldl
        (fun mm v => (if mm.1 > v then v else mm.1, if mm.2 < v then v else mm.2))
        (a, a))

/-! ## calibrate.go -/

/-- `Hyperparameters` (calibrate.go): an output path plus the four
candidate-value lists, already converted to numbers. -/
structure Hyperparameters where
  Outpath : String
  Alpha : List ℚ
  NumEpochs : List ℚ
  Lambda : List ℚ
  MiniBatchSize : List ℚ
  deriving DecidableEq, Inhabited

/-- `jsonInput` (calibrate.go): the raw decoded record; the candidate
values are still strings, embedded at the parse boundary as `Option ℚ`. -/
structure JsonInput where
  Outpath : String
  Alpha : List (Option ℚ)
  NumEpochs : List (Option ℚ)
  Lambda : List (Option ℚ)
  MiniBatchSize : List (Option ℚ)
  deriving DecidableEq

/-- `stringToFloat64` (calibrate.go): loops over the input, calls
`strconv.ParseFloat` on each string, discards the error (`conv, _ := ...`)
and appends the returned value — `0` whenever the string does not parse. -/
def stringToFloat64 (input : List (Option ℚ)) : List ℚ :=
  input.foldl (fun output s => output ++ [s.getD 0]) []

/-- Conversion of a decoded `jsonInput` record into a `Hyperparameters`
task (the body shared by `readJSONInputTasks` and
`readJSONInputTasksParallel`). -/
def jsonToHyper (j : JsonInput) : Hyperparameters :=
  { Outpath := j.Outpath
    Alpha := stringToFloat64 j.Alpha
    NumEpochs := stringToFloat64 j.NumEpochs
    Lambda := stringToFloat64 j.Lambda
    MiniBatchSize := stringToFloat64 j.MiniBatchSize }

/-- Go's zero value for `jsonInput`: empty string, nil slices.  This is
what `var j jsonInput` holds when `dec.Decode(&j)` fails. -/
def zeroJsonInput : JsonInput :=
  ⟨"", [], [], [], []⟩

/-- One record of the input stream as seen through `dec.Decode`:
`ok j` is a record that decodes to `j`; `malformed` is a record whose
decode returns a non-EOF error, leaving the target at its zero value.
End of stream is the end of the list. -/
inductive DecodeResult where
  | ok (j : JsonInput)
  | malformed
  deriving DecidableEq

/-- The value held by `j` after `dec.Decode(&j)` consumed one record. -/
def decodedValue : DecodeResult → JsonInput
  | .ok j => j
  | .malformed => zeroJsonInput

/-- `readJSONInputTasksParallel` (calibrate.go): under the reader lock,
loop `blockSize` times; on EOF break; otherwise convert whatever `j`
holds — even after a failed decode — and send it into the batch channel.
Returns the batch (channel contents, in order) and the rest of the
stream. -/
def readJSONInputTasksParallel :
    ℕ → List DecodeResult → List Hyperparameters × List DecodeResult
  | 0, stream => ([], stream)
  | _ + 1, [] => ([], [])
  | n + 1, r :: rest =>
      let h := jsonToHyper (decodedValue r)
      let p := readJSONInputTasksParallel n rest
      (h :: p.1, p.2)

/-- `math.MaxFloat64`, the sentinel the code uses as the initial
best-so-far error, as an exact rational. -/
def mathMaxFloat64 : ℚ :=
  (2 ^ 53 - 1) * 2 ^ 971

/-- `createArrayParamPermutations` (calibrate.go): the cross product of
the `Alpha` list (outer loop) and the `NumEpochs` list (inner loop); the
two reserved axes are emitted as nil. -/
def createArrayParamPermutations (hyperparameters : Hyperparameters) : List Hyperparameters :=
  hyperparameters.Alpha.flatMap (fun alpha =>
    hyperparameters.NumEpochs.map (fun numEpochs =>
      ⟨hyperparameters.Outpath, [alpha], [numEpochs], [], []⟩))

/-- The `(alpha, numEpochs)` pairs visited by the nested loops of
`gridSearchSequential`, in loop order — the same order in which
`createArrayParamPermutations` emits permutations. -/
def gridPermPairs (hp : Hyperparameters) : List (ℚ × ℚ) :=
  hp.Alpha.flatMap (fun alpha => hp.NumEpochs.map (fun numEpochs => (alpha, numEpochs)))

/-- `numTotalParamSets` (calibrate.go line 144): the product
`max(1,|Alpha|) * max(1,|NumEpochs|) * max(1,|Lambda|) * max(1,|MiniBatchSize|)`
(note: this counts the reserved axes even though the permutation array
never expands them). -/
def numTotalParamSets (hp : Hyperparameters) : ℕ :=
  max 1 hp.Alpha.length * max 1 hp.NumEpochs.length *
    max 1 hp.Lambda.length * max 1 hp.MiniBatchSize.length

/-- `workSizePerThread` (calibrate.go line 146):
`ceil(numTotalParamSets / numThreads)`, as a natural number (the Go code
computes it in exact small-integer float arithmetic). -/
def workSizePerThread (numThreads : ℕ) (hp : Hyperparameters) : ℕ :=
  (numTotalParamSets hp + numThreads - 1) / numThreads

/-- The chunk-launching loop of `worker` (calibrate.go lines 151-162):
for `i` from 0 while threads remain, take
`workArray[i*c : (i+1)*c]`; as soon as `(i+1)*c` exceeds `len(workArray)`
the loop breaks, dropping everything not yet covered. -/
def chunkLoop (workArray : List Hyperparameters) (c : ℕ) : ℕ → ℕ → List (List Hyperparameters)
  | 0, _ => []
  | n + 1, i =>
      if (i + 1) * c ≤ workArray.length then
        ((workArray.drop (i * c)).take c) :: chunkLoop workArray c n (i + 1)
      else []

/-- The chunks (one per launched sub-worker) that `worker` creates for one
grid descriptor. -/
def workerChunks (numThreads : ℕ) (hp : Hyperparameters) : List (List Hyperparameters) :=
  chunkLoop (createArrayParamPermutations hp) (workSizePerThread numThreads hp) numThreads 0

/-- `runGradientDescent` (calibrate.go): parameters start at `(0,0)` and
`UpdateParams` is applied `int(numEpochs)` times (Go truncates the float
toward zero; after clamping negatives to a zero iteration count this is
`⌊numEpochs⌋.toNat`). -/
def runGradientDescent (dataNormalized : InputData) (alpha numEpochs : ℚ) : Parameters :=
  (fun p => UpdateParams p dataNormalized alpha)^[(⌊numEpochs⌋).toNat] ⟨0, 0⟩

/-- The per-permutation evaluation pipeline shared by
`gridSearchSequential` and `runParallelGradientDescent`: fit on the
normalized data, un-normalize, forecast on the raw data, score with MSE.
Returns `(mse, fitted parameters)`. -/
def evalPermutation (dataNormalized rawData : InputData) (minX maxX alpha numEpochs : ℚ) :
    ℚ × Parameters :=
  let parameters := UnNormalize (runGradientDescent dataNormalized alpha numEpochs)
    rawData minX maxX
  (CalcMSE (Forecast parameters.Mu parameters.Beta rawData.X) rawData.Y, parameters)

/-- `BestResult` (spec §3): the best `(hyperparameters, error, fitted
parameters)` triple found so far for one grid. -/
structure BestResult where
  hyper : Hyperparameters
  mse : ℚ
  params : Parameters
  deriving DecidableEq, Inhabited

/-- The initial best-so-far triple both `gridSearchSequential` (lines
67-69) and `worker` (lines 139-142) create: outpath with nil candidate
lists, error `math.MaxFloat64`, parameters `(0,0)`. -/
def initialBest (outpath : String) : BestResult :=
  ⟨⟨outpath, [], [], [], []⟩, mathMaxFloat64, ⟨0, 0⟩⟩

/-- One strict-improvement update of a best-so-far triple by the
permutation `(pr.1, pr.2)`; this is the `if mse < optimalMSE` body shared
by `gridSearchSequential` (lines 78-82) and the local tracking in
`runParallelGradientDescent` (lines 263-267). -/
def gridStep (dataNormalized rawData : InputData) (minX maxX : ℚ) (outpath : String)
    (acc : BestResult) (pr : ℚ × ℚ) : BestResult :=
  let r := evalPermutation dataNormalized rawData minX maxX pr.1 pr.2
  if r.1 < acc.mse then ⟨⟨outpath, [pr.1], [pr.2], [], []⟩, r.1, r.2⟩ else acc

/-- The `(alpha, numEpochs)` pair a sub-worker extracts from one
permutation element (`hyperParams.Alpha[0]`, `hyperParams.NumEpochs[0]`). -/
def permPair (p : Hyperparameters) : ℚ × ℚ :=
  (p.Alpha.getD 0 0, p.NumEpochs.getD 0 0)

/-- The per-grid loop body of `gridSearchSequential`: fold the
strict-improvement update over the nested alpha x numEpochs loops. -/
def sequentialGridBest (dataNormalized rawData : InputData) (minX maxX : ℚ)
    (hp : Hyperparameters) : BestResult :=
  (gridPermPairs hp).foldl (gridStep dataNormalized rawData minX maxX hp.Outpath)
    (initialBest hp.Outpath)

/-- The local best a single sub-worker (`runParallelGradientDescent`,
lines 253-268) computes over its chunk. -/
def subWorkerLocalBest (dataNormalized rawData : InputData) (minX maxX : ℚ)
    (outpath : String) (chunk : List Hyperparameters) : BestResult :=
  chunk.foldl
    (fun acc p => gridStep dataNormalized rawData minX maxX outpath acc (permPair p))
    (initialBest outpath)

/-- The merge of one finished sub-worker's local best into the grid-level
shared best (`runParallelGradientDescent` lines 269-275), as a value-level
function: overwrite the whole triple when the local error is strictly
lower. -/
def mergeBest (globalBest localBest : BestResult) : BestResult :=
  if localBest.mse < globalBest.mse then localBest else globalBest

/-- The grid-level `BestResult` produced by `worker` for one grid with
thread budget `numThreads`, ASSUMING the sub-worker merges are serialized
in chunk order.  The code does not guarantee serialization (the compare at
line 269 is outside the lock); the small-step model `runRacyBest` below
makes every interleaving of the merge actions executable, and
`racySerial_eq_parallel` proves that every serialized interleaving of that
faithful model produces exactly this value — so this definition is the
serialized special case, not the general program behaviour. -/
def parallelGridBest (dataNormalized rawData : InputData) (minX maxX : ℚ)
    (outpath : String) (numThreads : ℕ) (hp : Hyperparameters) : BestResult :=
  ((workerChunks numThreads hp).map
      (subWorkerLocalBest dataNormalized rawData minX maxX outpath)).foldl
    mergeBest (initialBest outpath)

/-- The data-preparation prefix of `gridSearchSequential` (lines 60-61,
also `worker` lines 132-133): compute the min and max of `X` (panics on an
empty slice, hence `Option`) and then normalize — there is no rejection
check of any kind in between. -/
def gridSearchDataPrep (d : InputData) : Option InputData :=
  (MinMax d.X).map (fun mm => Normalize d mm.1 mm.2)

/-! ## The shared-best merge protocol of `runParallelGradientDescent`

The code of lines 269-275 is

  if localOptimalMSE < *globalOptimalMSE {   // read + compare, NOT under the lock
      globalParamLock.Lock()
      *globalOptimalMSE = localOptimalMSE    // unconditional overwrite
      ...
      globalParamLock.Unlock()
  }

Each sub-worker's merge therefore consists of two separately-scheduled
atomic actions: an unlocked read-compare, and a locked overwrite whose
condition was decided earlier.  The small-step model below makes every
interleaving of those actions executable. -/

/-- The control point a merging sub-worker is at. -/
inductive MergePhase where
  | compare
  | write
  | done
  deriving DecidableEq, Inhabited

/-- One merging sub-worker: its control point, the comparison outcome it
saved at the unlocked read, and its local best error. -/
structure MergeThread where
  phase : MergePhase
  cond : Bool
  localMSE : ℚ
  deriving DecidableEq

/-- One atomic action of the code's merge protocol: in `compare`, read the
shared best and save `localMSE < global` without holding the lock; in
`write`, if the saved condition is true, overwrite the shared best inside
the lock (the comparison is NOT re-checked there). -/
def stepRacyMerge (globalMSE : ℚ) (t : MergeThread) : ℚ × MergeThread :=
  match t.phase with
  | .compare =>
      (globalMSE,
       { t with cond := if t.localMSE < globalMSE then true else false, phase := .write })
  | .write => (if t.cond then t.localMSE else globalMSE, { t with phase := .done })
  | .done => (globalMSE, t)

/-- Run two merging sub-workers `tA`, `tB` against a shared best error
under a schedule (`false` = A takes the next atomic action, `true` = B). -/
def runRacySchedule :
    ℚ × MergeThread × MergeThread → List Bool → ℚ × MergeThread × MergeThread
  | s, [] => s
  | (g, tA, tB), false :: rest =>
      let r := stepRacyMerge g tA
      runRacySchedule (r.1, r.2, tB) rest
  | (g, tA, tB), true :: rest =>
      let r := stepRacyMerge g tB
      runRacySchedule (r.1, tA, r.2) rest

/-- The discipline the claim describes: read, compare and conditional
overwrite inside one lock acquisition — a single atomic action. -/
def stepAtomicMerge (globalMSE localMSE : ℚ) : ℚ :=
  if localMSE < globalMSE then localMSE else globalMSE

/-- Under the claimed discipline the locked sections serialize, so an
execution is just a sequence of atomic merges. -/
def runAtomicSchedule (globalMSE : ℚ) : List ℚ → ℚ
  | [] => globalMSE
  | m :: rest => runAtomicSchedule (stepAtomicMerge globalMSE m) rest

/-! ### The same two-phase merge over the full shared `BestResult` triple

The ℚ-level model above isolates the lock-discipline defect; the model
below carries the full program state, so that the grid-level outcome
handed to the Writer can be computed for ANY interleaving of the
sub-worker merge actions, with each sub-worker holding the local best it
actually computed over its chunk. -/

/-- One merging sub-worker of `runParallelGradientDescent`: its control
point, the comparison outcome saved at the unlocked read, and the local
best triple it computed over its chunk. -/
structure RacyThread where
  phase : MergePhase
  cond : Bool
  localBest : BestResult
  deriving DecidableEq, Inhabited

/-- One atomic action of the merge protocol (calibrate.go lines 269-275)
on the full shared triple: in `compare`, read the shared best error and
save `localMSE < global` WITHOUT holding the lock; in `write`, if the
saved outcome was true, overwrite the whole shared triple inside the lock
(the comparison is not re-checked there). -/
def stepRacyBest (globalBest : BestResult) (t : RacyThread) : BestResult × RacyThread :=
  match t.phase with
  | .compare =>
      (globalBest,
       { t with cond := if t.localBest.mse < globalBest.mse then true else false
                phase := .write })
  | .write => (if t.cond then t.localBest else globalBest, { t with phase := .done })
  | .done => (globalBest, t)

/-- Run the sub-worker merges of one grid under an arbitrary interleaving:
the schedule names which sub-worker performs its next atomic action (an
out-of-range index is a no-op). -/
def runRacyBest : List ℕ → BestResult → List RacyThread → BestResult × List RacyThread
  | [], g, ts => (g, ts)
  | i :: rest, g, ts =>
      match ts[i]? with
      | none => runRacyBest rest g ts
      | some t => runRacyBest rest (stepRacyBest g t).1 (ts.set i (stepRacyBest g t).2)

/-- The sub-worker threads for one grid: one per chunk, each about to run
its unlocked compare, carrying the local best it computed over its
chunk. -/
def mkRacyThreads (dataNormalized rawData : InputData) (minX maxX : ℚ) (o : String)
    (chunks : List (List Hyperparameters)) : List RacyThread :=
  chunks.map (fun chunk =>
    ⟨.compare, false, subWorkerLocalBest dataNormalized rawData minX maxX o chunk⟩)

/-- The `BestResult` that `worker` hands to the Writer for one grid, as a
function of the interleaving of the sub-worker merge actions.  This is the
faithful grid-level outcome of the program. -/
def racyParallelOutcome (dataNormalized rawData : InputData) (minX maxX : ℚ) (o : String)
    (numThreads : ℕ) (hp : Hyperparameters) (schedule : List ℕ) : BestResult :=
  (runRacyBest schedule (initialBest o)
    (mkRacyThreads dataNormalized rawData minX maxX o (workerChunks numThreads hp))).1

/-- A serialized execution: each listed sub-worker performs its compare
and its write back to back, with no other action in between — exactly
what the claimed one-critical-section discipline would enforce, in an
arbitrary lock-acquisition order. -/
def serialSchedule (order : List ℕ) : List ℕ :=
  order.flatMap (fun i => [i, i])

/-! ## Concrete fixtures used by the claim theorems -/

/-- A grid with one learning rate and three epoch counts: 3 permutations. -/
def exGrid3 : Hyperparameters :=
  ⟨"o", [1/2], [0, 1, 2], [], []⟩

/-- The toy dataset `X = [0,1]`, `Y = [0,1]` (the exact line `Y = X`). -/
def exData : InputData :=
  ⟨[0, 1], [0, 1]⟩

/-- A grid with one learning rate and two epoch counts: 2 permutations. -/
def exGrid2 : Hyperparameters :=
  ⟨"o", [1/2], [0, 1], [], []⟩

/-- A well-formed stream record used by the decoding theorems. -/
def exJson : JsonInput :=
  ⟨"p", [some (1/2)], [some 10], [], []⟩

/-! ## Helper lemmas -/

/-- The error that the evaluation pipeline assigns to the permutation
`(pr.1, pr.2)` — the quantity the strict-improvement comparisons act on. -/
def pairMSE (dataNormalized rawData : InputData) (minX maxX : ℚ) (pr : ℚ × ℚ) : ℚ :=
  (evalPermutation dataNormalized rawData minX maxX pr.1 pr.2).1

lemma toNat_two : Int.toNat 2 = 2 := rfl

lemma foldlMin_le_start (l : List ℚ) : ∀ a : ℚ, l.foldl min a ≤ a := by
  induction l with
  | nil => intro a; simp
  | cons e l ih => intro a; exact le_trans (ih (min a e)) (min_le_left a e)

lemma foldlMin_le_mem (l : List ℚ) : ∀ (a x : ℚ), x ∈ l → l.foldl min a ≤ x := by
  induction l with
  | nil => intro a x hx; simp at hx
  | cons e l ih =>
      intro a x hx
      rcases List.mem_cons.1 hx with h | h
      · subst h; exact le_trans (foldlMin_le_start l (min a x)) (min_le_right a x)
      · exact ih (min a e) x h

lemma foldlMin_absorb (l : List ℚ) : ∀ x M : ℚ, x ≤ M → min x (l.foldl min M) = l.foldl min x := by
  induction l with
  | nil => intro x M h; simpa using min_eq_left h
  | cons e l ih =>
      intro x M h
      rw [List.foldl_cons, List.foldl_cons, ← ih (min x e) (min M e) (min_le_min h le_rfl)]
      have hF : l.foldl min (min M e) ≤ e :=
        le_trans (foldlMin_le_start l (min M e)) (min_le_right M e)
      rw [min_assoc, min_eq_right hF]

lemma gridStep_mse (dN raw : InputData) (mn mx : ℚ) (o : String) (acc : BestResult)
    (pr : ℚ × ℚ) :
    (gridStep dN raw mn mx o acc pr).mse = min acc.mse (pairMSE dN raw mn mx pr) := by
  simp only [gridStep, pairMSE]
  split_ifs with h
  · exact (min_eq_right h.le).symm
  · exact (min_eq_left (not_lt.1 h)).symm

lemma foldl_gridStep_mse (dN raw : InputData) (mn mx : ℚ) (o : String)
    (prs : List (ℚ × ℚ)) : ∀ acc : BestResult,
    (prs.foldl (gridStep dN raw mn mx o) acc).mse
      = (prs.map (pairMSE dN raw mn mx)).foldl min acc.mse := by
  induction prs with
  | nil => intro acc; rfl
  | cons pr prs ih =>
      intro acc
      rw [List.foldl_cons, List.map_cons, List.foldl_cons, ih, gridStep_mse]

lemma subWorkerLocalBest_mse (dN raw : InputData) (mn mx : ℚ) (o : String)
    (chunk : List Hyperparameters) :
    (subWorkerLocalBest dN raw mn mx o chunk).mse
      = (chunk.map (fun p => pairMSE dN raw mn mx (permPair p))).foldl min mathMaxFloat64 := by
  unfold subWorkerLocalBest
  rw [← List.foldl_map permPair (gridStep dN raw mn mx o), foldl_gridStep_mse, List.map_map]
  rfl

lemma mergeBest_mse (g l : BestResult) : (mergeBest g l).mse = min g.mse l.mse := by
  unfold mergeBest
  split_ifs with h
  · exact (min_eq_right h.le).symm
  · exact (min_eq_left (not_lt.1 h)).symm

lemma foldl_merge_locals_mse (dN raw : InputData) (mn mx : ℚ) (o : String)
    (chunks : List (List Hyperparameters)) : ∀ acc : BestResult, acc.mse ≤ mathMaxFloat64 →
    ((chunks.map (subWorkerLocalBest dN raw mn mx o)).foldl mergeBest acc).mse
      = (chunks.flatten.map (fun p => pairMSE dN raw mn mx (permPair p))).foldl min acc.mse := by
  induction chunks with
  | nil => intro acc _; rfl
  | cons C chunks ih =>
      intro acc hacc
      have hstep : (mergeBest acc (subWorkerLocalBest dN raw mn mx o C)).mse
          ≤ mathMaxFloat64 := by
        rw [mergeBest_mse]
        exact le_trans (min_le_left _ _) hacc
      rw [List.map_cons, List.foldl_cons, ih _ hstep, mergeBest_mse, subWorkerLocalBest_mse,
        foldlMin_absorb _ _ _ hacc, List.flatten_cons, List.map_append, List.foldl_append]

lemma parallelGridBest_mse (dN raw : InputData) (mn mx : ℚ) (o : String) (T : ℕ)
    (hp : Hyperparameters) :
    (parallelGridBest dN raw mn mx o T hp).mse
      = ((workerChunks T hp).flatten.map
          (fun p => pairMSE dN raw mn mx (permPair p))).foldl min mathMaxFloat64 := by
  unfold parallelGridBest
  rw [foldl_merge_locals_mse _ _ _ _ _ _ _ le_rfl]
  rfl

lemma sequentialGridBest_mse (dN raw : InputData) (mn mx : ℚ) (hp : Hyperparameters) :
    (sequentialGridBest dN raw mn mx hp).mse
      = ((gridPermPairs hp).map (pairMSE dN raw mn mx)).foldl min mathMaxFloat64 := by
  unfold sequentialGridBest
  rw [foldl_gridStep_mse]
  rfl

lemma stringToFloat64_eq_map (input : List (Option ℚ)) :
    stringToFloat64 input = input.map (fun s => s.getD 0) := by
  have key : ∀ (l : List (Option ℚ)) (acc : List ℚ),
      l.foldl (fun output s => output ++ [s.getD 0]) acc = acc ++ l.map (fun s => s.getD 0) := by
    intro l
    induction l with
    | nil => intro acc; simp
    | cons s l ih => intro acc; simp [ih]
  simpa using key input []

lemma foldl_mergeBest_mse (ls : List BestResult) : ∀ acc : BestResult,
    (ls.foldl mergeBest acc).mse = (ls.map BestResult.mse).foldl min acc.mse := by
  induction ls with
  | nil => intro acc; rfl
  | cons b ls ih =>
      intro acc
      rw [List.foldl_cons, List.map_cons, List.foldl_cons, ih, mergeBest_mse]

lemma map_getD_range {α : Type} [Inhabited α] : ∀ l : List α,
    (List.range l.length).map (fun i => l[i]?.getD default) = l := by
  intro l
  induction l with
  | nil => rfl
  | cons a l ih =>
      rw [List.length_cons, List.range_succ_eq_map, List.map_cons, List.map_map]
      simp only [List.getElem?_cons_zero, Option.getD_some]
      have hc : ((fun i => (a :: l)[i]?.getD default) ∘ Nat.succ)
          = (fun i => l[i]?.getD default) := by
        funext i
        simp
      rw [hc, ih]

/-- One scheduled action on a live thread, as an equation. -/
lemma runRacyBest_cons_some (g : BestResult) (ts : List RacyThread) (i : ℕ)
    (rest : List ℕ) (t : RacyThread) (h : ts[i]? = some t) :
    runRacyBest (i :: rest) g ts
      = runRacyBest rest (stepRacyBest g t).1 (ts.set i (stepRacyBest g t).2) := by
  conv_lhs => rw [runRacyBest]
  rw [h]

/-- Stepping one sub-worker that is at its unlocked compare, twice in a
row with nothing in between, amounts to one atomic conditional merge of
its local best into the shared triple; a serialized schedule is therefore
an atomic-merge fold over the scheduled sub-workers. -/
lemma runRacyBest_serial : ∀ (order : List ℕ) (g : BestResult) (ts : List RacyThread),
    order.Nodup →
    (∀ i ∈ order, ∃ t : RacyThread, ts[i]? = some t ∧ t.phase = MergePhase.compare) →
    (runRacyBest (serialSchedule order) g ts).1
      = (order.map (fun i => (ts[i]?.getD default).localBest)).foldl mergeBest g := by
  intro order
  induction order with
  | nil => intro g ts _ _; rfl
  | cons i order ih =>
      intro g ts hnd hph
      obtain ⟨t, hti, htc⟩ := hph i (List.mem_cons_self i order)
      have hilt : i < ts.length := by
        rcases List.getElem?_eq_some_iff.1 hti with ⟨h, _⟩
        exact h
      have hss : serialSchedule (i :: order) = i :: i :: serialSchedule order := rfl
      set t1 : RacyThread :=
        { t with cond := if t.localBest.mse < g.mse then true else false
                 phase := MergePhase.write } with ht1
      have hstep1a : (stepRacyBest g t).1 = g := by
        unfold stepRacyBest
        rw [htc]
      have hstep1b : (stepRacyBest g t).2 = t1 := by
        rw [ht1]
        unfold stepRacyBest
        rw [htc]
      have hset1 : (ts.set i t1)[i]? = some t1 := by
        simp [List.getElem?_set, hilt]
      have hstep2 : (stepRacyBest g t1).1 = mergeBest g t.localBest := by
        unfold stepRacyBest mergeBest
        rw [ht1]
        by_cases hc : t.localBest.mse < g.mse
        · simp [hc]
        · simp [hc]
      have hrun : (runRacyBest (serialSchedule (i :: order)) g ts).1
          = (runRacyBest (serialSchedule order) (mergeBest g t.localBest)
              ((ts.set i t1).set i (stepRacyBest g t1).2)).1 := by
        rw [hss, runRacyBest_cons_some g ts i _ t hti, hstep1a, hstep1b,
          runRacyBest_cons_some g (ts.set i t1) i _ t1 hset1, hstep2]
      rw [hrun, List.set_set]
      have hnd1 : order.Nodup := (List.nodup_cons.1 hnd).2
      have hnotmem : i ∉ order := (List.nodup_cons.1 hnd).1
      have hph1 : ∀ j ∈ order, ∃ u : RacyThread,
          (ts.set i (stepRacyBest g t1).2)[j]? = some u ∧ u.phase = MergePhase.compare := by
        intro j hj
        have hne : i ≠ j := fun h => hnotmem (h ▸ hj)
        rw [List.getElem?_set_ne hne]
        exact hph j (List.mem_cons_of_mem i hj)
      rw [ih (mergeBest g t.localBest) (ts.set i (stepRacyBest g t1).2) hnd1 hph1]
      rw [List.map_cons, List.foldl_cons, hti]
      have hmaps : order.map
            (fun j => (((ts.set i (stepRacyBest g t1).2)[j]?).getD default).localBest)
          = order.map (fun j => ((ts[j]?).getD default).localBest) := by
        refine List.map_congr_left ?_
        intro j hj
        have hne : i ≠ j := fun h => hnotmem (h ▸ hj)
        rw [List.getElem?_set_ne hne]
      rw [hmaps]
      rfl

/-- Every serialized interleaving of the faithful merge model — each
sub-worker's compare and write back to back, every sub-worker exactly
once, in any lock-acquisition order — yields the serialized-fold value
`parallelGridBest` on the winning error. -/
lemma racySerial_eq_parallel (dN raw : InputData) (mn mx : ℚ) (o : String) (T : ℕ)
    (hp : Hyperparameters) (order : List ℕ)
    (hperm : order.Perm (List.range (workerChunks T hp).length)) :
    (racyParallelOutcome dN raw mn mx o T hp (serialSchedule order)).mse
      = (parallelGridBest dN raw mn mx o T hp).mse := by
  set ts : List RacyThread := mkRacyThreads dN raw mn mx o (workerChunks T hp) with hts
  have hlen : ts.length = (workerChunks T hp).length := by
    rw [hts]
    unfold mkRacyThreads
    exact List.length_map _ _
  have hnd : order.Nodup := hperm.nodup_iff.2 (List.nodup_range _)
  have hph : ∀ i ∈ order, ∃ t : RacyThread, ts[i]? = some t ∧ t.phase = MergePhase.compare := by
    intro i hi
    have hilt : i < (workerChunks T hp).length :=
      List.mem_range.1 (hperm.mem_iff.1 hi)
    obtain ⟨c, hc⟩ : ∃ c, (workerChunks T hp)[i]? = some c :=
      ⟨_, List.getElem?_eq_getElem hilt⟩
    refine ⟨⟨.compare, false, subWorkerLocalBest dN raw mn mx o c⟩, ?_, rfl⟩
    rw [hts]
    unfold mkRacyThreads
    rw [List.getElem?_map, hc]
    rfl
  have hmain : (racyParallelOutcome dN raw mn mx o T hp (serialSchedule order)).mse
      = (order.map (fun i => ((ts[i]?.getD default).localBest.mse))).foldl min
          (initialBest o).mse := by
    unfold racyParallelOutcome
    rw [← hts, runRacyBest_serial order (initialBest o) ts hnd hph, foldl_mergeBest_mse,
      List.map_map]
    rfl
  have hperm3 : (order.map (fun i => ((ts[i]?.getD default).localBest.mse))).Perm
      ((List.range ts.length).map (fun i => ((ts[i]?.getD default).localBest.mse))) := by
    refine List.Perm.map _ ?_
    rw [hlen]
    exact hperm
  have hfold : (order.map (fun i => ((ts[i]?.getD default).localBest.mse))).foldl min
        ((initialBest o).mse)
      = ((List.range ts.length).map
          (fun i => ((ts[i]?.getD default).localBest.mse))).foldl min
          ((initialBest o).mse) :=
    hperm3.foldl_eq _
  have hrange : (List.range ts.length).map (fun i => ((ts[i]?.getD default).localBest.mse))
      = ts.map (fun t => t.localBest.mse) := by
    have hcomp : (fun i : ℕ => ((ts[i]?.getD (default : RacyThread)).localBest.mse))
        = (fun t : RacyThread => t.localBest.mse) ∘ (fun i : ℕ => ts[i]?.getD default) := rfl
    rw [hcomp, ← List.map_map, map_getD_range]
  have hpar : (ts.map (fun t => t.localBest.mse)).foldl min ((initialBest o).mse)
      = (parallelGridBest dN raw mn mx o T hp).mse := by
    rw [hts]
    unfold mkRacyThreads parallelGridBest
    rw [foldl_mergeBest_mse, List.map_map, List.map_map]
    rfl
  rw [hmain, hfold, hrange, hpar]

/-! ## Claim theorems -/

/-- Claim C1 (code bug): the claim requires every permutation to land in
exactly one chunk for every `L ≥ 1`, `T ≥ 1`, but the chunking of `worker`
drops the trailing partial chunk.  Concretely: a grid with 3 permutations
split across 2 threads has chunk size `ceil(3/2) = 2`, so only one chunk
(2 permutations) is launched and the third permutation — here
`(alpha, numEpochs) = (1/2, 2)` — is assigned to no chunk at all. -/
theorem chunking_drops_trailing_permutation :
    (createArrayParamPermutations exGrid3).length = 3 ∧
    (workerChunks 2 exGrid3).flatten.length = 2 ∧
    (⟨"o", [1/2], [2], [], []⟩ : Hyperparameters) ∈ createArrayParamPermutations exGrid3 ∧
    (⟨"o", [1/2], [2], [], []⟩ : Hyperparameters) ∉ (workerChunks 2 exGrid3).flatten := by
  norm_num [workerChunks, chunkLoop, workSizePerThread, numTotalParamSets,
    createArrayParamPermutations, exGrid3]

/-- Claim C2 (code bug): the claim requires an empty dataset, or one with
`min X = max X`, to be rejected as a fatal configuration error before any
grid-search work.  The code has no such check: on `X = [1,1]` it computes
`MinMax = (1,1)` and proceeds straight into `Normalize`, whose divisor
`maxX - minX` is `0` (in Go the normalized values become NaN and the grid
search runs on them); on the empty dataset it reaches `arr[0]` inside
`MinMax` and panics (`none` here) instead of reporting a configuration
error up front. -/
theorem degenerate_data_reaches_division :
    MinMax (InputData.mk [1, 1] [0, 0]).X = some (1, 1) ∧
    gridSearchDataPrep ⟨[1, 1], [0, 0]⟩ = some (Normalize ⟨[1, 1], [0, 0]⟩ 1 1) ∧
    gridSearchDataPrep ⟨[], []⟩ = none := by
  refine ⟨by norm_num [MinMax], ?_, rfl⟩
  norm_num [gridSearchDataPrep, MinMax]

/-- Claim C3 (counterexample): a malformed record is NOT skipped by the
batch-reading operation — it contributes a task.  With the stream
`[malformed, ok exJson]` and block size 2, the returned batch has two
tasks: the zero-valued task produced from the failed decode, then the task
of the well-formed record (which also shows the stream is not aborted). -/
theorem malformed_record_contributes_task :
    (readJSONInputTasksParallel 2 [DecodeResult.malformed, DecodeResult.ok exJson]).1 =
      [⟨"", [], [], [], []⟩, ⟨"p", [1/2], [10], [], []⟩] ∧
    (readJSONInputTasksParallel 2 [DecodeResult.malformed, DecodeResult.ok exJson]).1.length
      ≠ 1 := by
  norm_num [readJSONInputTasksParallel, decodedValue, jsonToHyper, zeroJsonInput,
    stringToFloat64, exJson]

/-- Claim C3 (amended): on a malformed record, decoding continues with the
next record (the stream is not aborted), but the record is not skipped: it
contributes a `Hyperparameters` task converted from the decoder's
zero-value record.  In general a batch read of `blockSize` records
consumes `min(blockSize, length)` records and converts every one of them,
malformed ones included, in order. -/
theorem batch_read_converts_every_record (blockSize : ℕ) (stream : List DecodeResult) :
    (readJSONInputTasksParallel blockSize stream).1
      = (stream.take blockSize).map (fun r => jsonToHyper (decodedValue r)) ∧
    (readJSONInputTasksParallel blockSize stream).2 = stream.drop blockSize ∧
    jsonToHyper (decodedValue DecodeResult.malformed) = ⟨"", [], [], [], []⟩ := by
  refine ⟨?_, ?_, rfl⟩ <;>
  · induction blockSize generalizing stream with
    | zero => simp [readJSONInputTasksParallel]
    | succ n ih =>
        cases stream with
        | nil => simp [readJSONInputTasksParallel]
        | cons r rest => simp [readJSONInputTasksParallel, ih rest]

/-- Claim C4 (code bug): the claim (and the min-max scaling algebra)
requires `slope' = beta / (max - min)` with no additive term, intercept
unchanged.  The code computes `beta / (maxX - minX) - minX`.  At
`(Mu, Beta) = (5, 0)`, `minX = 1`, `maxX = 2` the code returns slope `-1`
where the claimed (and correct) value is `0 / (2 - 1) = 0`; the intercept
is indeed left unchanged. -/
theorem unnormalize_slope_additive_term :
    UnNormalize ⟨5, 0⟩ ⟨[1, 2], [0, 0]⟩ 1 2 = ⟨5, -1⟩ ∧
    (UnNormalize ⟨5, 0⟩ ⟨[1, 2], [0, 0]⟩ 1 2).Beta ≠ (0 : ℚ) / (2 - 1) := by
  norm_num [UnNormalize]

/-- Claim C5 (code bug): the claim requires that the grid-level best is
replaced only on strictly lower error and that the final `BestResult`
error handed to the Writer is ≤ the error of every permutation actually
evaluated for the grid.  Because the comparison at calibrate.go:269 runs
outside the lock and the locked overwrite does not re-check it, the
schedule in which both sub-workers of `exGrid2` (local bests 1/2 and 1/8)
compare against the `math.MaxFloat64` sentinel before either writes is
admissible; the 1/8 sub-worker then writes first and the 1/2 sub-worker
overwrites it.  The Writer receives error 1/2 although the permutation
`(1/2, 1)` with error 1/8 was evaluated — the claimed reduction
correctness is violated by the program. -/
theorem race_hands_writer_worse_error :
    (racyParallelOutcome (Normalize exData 0 1) exData 0 1 "o" 2 exGrid2 [0, 1, 1, 0]).mse
      = 1/2 ∧
    (⟨"o", [1/2], [1], [], []⟩ : Hyperparameters) ∈ (workerChunks 2 exGrid2).flatten ∧
    pairMSE (Normalize exData 0 1) exData 0 1 (permPair ⟨"o", [1/2], [1], [], []⟩) = 1/8 ∧
    ¬ (racyParallelOutcome (Normalize exData 0 1) exData 0 1 "o" 2 exGrid2 [0, 1, 1, 0]).mse
        ≤ pairMSE (Normalize exData 0 1) exData 0 1 (permPair ⟨"o", [1/2], [1], [], []⟩) := by
  have hrace : (racyParallelOutcome (Normalize exData 0 1) exData 0 1 "o" 2 exGrid2
      [0, 1, 1, 0]).mse = 1/2 := by
    norm_num [racyParallelOutcome, runRacyBest, stepRacyBest, mkRacyThreads, List.set,
      workerChunks, chunkLoop, workSizePerThread, numTotalParamSets,
      createArrayParamPermutations, subWorkerLocalBest, gridStep, permPair, initialBest,
      mathMaxFloat64, evalPermutation, runGradientDescent, UpdateParams, Forecast,
      calcGradientMu, calcGradientBeta, CalcMSE, UnNormalize, Normalize, exData, exGrid2,
      Function.iterate_succ_apply, toNat_two, List.range_succ]
  have hmem : (⟨"o", [1/2], [1], [], []⟩ : Hyperparameters) ∈ (workerChunks 2 exGrid2).flatten := by
    norm_num [workerChunks, chunkLoop, workSizePerThread, numTotalParamSets,
      createArrayParamPermutations, exGrid2]
  have heval : pairMSE (Normalize exData 0 1) exData 0 1
      (permPair ⟨"o", [1/2], [1], [], []⟩) = 1/8 := by
    norm_num [pairMSE, permPair, evalPermutation, runGradientDescent, UpdateParams, Forecast,
      calcGradientMu, calcGradientBeta, CalcMSE, UnNormalize, Normalize, exData,
      Function.iterate_succ_apply, List.range_succ]
  refine ⟨hrace, hmem, heval, ?_⟩
  rw [hrace, heval]
  norm_num

/-- Claim C6 (counterexample): partitioning DOES change which optimum is
found.  On the dataset `X = Y = [0,1]` and the grid with `alpha = 1/2`,
`numEpochs ∈ {0,1,2}` (3 permutations), the 2-thread partition launches a
single sub-worker covering only the first chunk (chunk size
`ceil(3/2) = 2`), so the one admissible complete execution reports
winning error `1/8`, while the single-sub-worker run covers all 3
permutations and reports `1/16`.  Each run has exactly one sub-worker, so
its two-phase merge cannot interleave with anything and the outcome is
schedule-independent. -/
theorem partition_changes_winner :
    (racyParallelOutcome (Normalize exData 0 1) exData 0 1 "o" 2 exGrid3
        (serialSchedule [0])).mse = 1/8 ∧
    (racyParallelOutcome (Normalize exData 0 1) exData 0 1 "o" 1 exGrid3
        (serialSchedule [0])).mse = 1/16 ∧
    (racyParallelOutcome (Normalize exData 0 1) exData 0 1 "o" 2 exGrid3
        (serialSchedule [0])).mse ≠
      (racyParallelOutcome (Normalize exData 0 1) exData 0 1 "o" 1 exGrid3
        (serialSchedule [0])).mse := by
  have h2 : (racyParallelOutcome (Normalize exData 0 1) exData 0 1 "o" 2 exGrid3
      (serialSchedule [0])).mse = 1/8 := by
    norm_num [racyParallelOutcome, serialSchedule, runRacyBest, stepRacyBest, mkRacyThreads,
      List.set, workerChunks, chunkLoop, workSizePerThread, numTotalParamSets,
      createArrayParamPermutations, subWorkerLocalBest, gridStep, permPair, initialBest,
      mathMaxFloat64, evalPermutation, runGradientDescent, UpdateParams, Forecast,
      calcGradientMu, calcGradientBeta, CalcMSE, UnNormalize, Normalize, exData, exGrid3,
      Function.iterate_succ_apply, toNat_two, List.range_succ]
  have h1 : (racyParallelOutcome (Normalize exData 0 1) exData 0 1 "o" 1 exGrid3
      (serialSchedule [0])).mse = 1/16 := by
    norm_num [racyParallelOutcome, serialSchedule, runRacyBest, stepRacyBest, mkRacyThreads,
      List.set, workerChunks, chunkLoop, workSizePerThread, numTotalParamSets,
      createArrayParamPermutations, subWorkerLocalBest, gridStep, permPair, initialBest,
      mathMaxFloat64, evalPermutation, runGradientDescent, UpdateParams, Forecast,
      calcGradientMu, calcGradientBeta, CalcMSE, UnNormalize, Normalize, exData, exGrid3,
      Function.iterate_succ_apply, toNat_two, List.range_succ]
  refine ⟨h2, h1, ?_⟩
  rw [h2, h1]
  norm_num

/-- Claim C6 (amended): whenever (i) the chunk partition actually covers
the full permutation sequence for both runs being compared — with the
reference chunking this holds exactly when the per-thread chunk size
divides the permutation count — and (ii) each run's sub-worker merges are
serialized, i.e. every sub-worker performs its read-compare-write as one
uninterrupted block, exactly once, in an arbitrary lock-acquisition order
(which the claimed one-critical-section discipline would enforce, but the
code's unlocked compare does not), then evaluating with `T` sub-workers
and with a single sub-worker yield the same winning (minimal) error.
Both sides are stated over the faithful interleaving semantics
`racyParallelOutcome`; without (i) the trailing-chunk drop breaks the
property (see the counterexample), and without (ii) the lost-update race
breaks it (see the C5 and C7 theorems). -/
theorem partition_preserves_winner_of_coverage (dN raw : InputData) (mn mx : ℚ)
    (o : String) (T : ℕ) (hp : Hyperparameters) (orderT order1 : List ℕ)
    (hpermT : orderT.Perm (List.range (workerChunks T hp).length))
    (hperm1 : order1.Perm (List.range (workerChunks 1 hp).length))
    (hT : (workerChunks T hp).flatten = createArrayParamPermutations hp)
    (h1 : (workerChunks 1 hp).flatten = createArrayParamPermutations hp) :
    (racyParallelOutcome dN raw mn mx o T hp (serialSchedule orderT)).mse
      = (racyParallelOutcome dN raw mn mx o 1 hp (serialSchedule order1)).mse := by
  rw [racySerial_eq_parallel dN raw mn mx o T hp orderT hpermT,
    racySerial_eq_parallel dN raw mn mx o 1 hp order1 hperm1,
    parallelGridBest_mse, parallelGridBest_mse, hT, h1]

/-- Witness for the amended C6: the grid `exGrid2` (2 permutations, chunk
size `ceil(2/2) = 1`, so two sub-workers each take one permutation and
coverage holds) with the serialized lock order `[1, 0]`, against the
single-sub-worker run with its only order `[0]`. -/
theorem partition_preserves_winner_witness :
    (([1, 0] : List ℕ).Perm (List.range (workerChunks 2 exGrid2).length) ∧
     ([0] : List ℕ).Perm (List.range (workerChunks 1 exGrid2).length) ∧
     (workerChunks 2 exGrid2).flatten = createArrayParamPermutations exGrid2 ∧
     (workerChunks 1 exGrid2).flatten = createArrayParamPermutations exGrid2) ∧
    (racyParallelOutcome (Normalize exData 0 1) exData 0 1 "o" 2 exGrid2
        (serialSchedule [1, 0])).mse
      = (racyParallelOutcome (Normalize exData 0 1) exData 0 1 "o" 1 exGrid2
        (serialSchedule [0])).mse :=
  have hlen2 : (workerChunks 2 exGrid2).length = 2 := by
    norm_num [workerChunks, chunkLoop, workSizePerThread, numTotalParamSets,
      createArrayParamPermutations, exGrid2]
  have hlen1 : (workerChunks 1 exGrid2).length = 1 := by
    norm_num [workerChunks, chunkLoop, workSizePerThread, numTotalParamSets,
      createArrayParamPermutations, exGrid2]
  have hpT : ([1, 0] : List ℕ).Perm (List.range (workerChunks 2 exGrid2).length) := by
    rw [hlen2]
    decide
  have hp1 : ([0] : List ℕ).Perm (List.range (workerChunks 1 exGrid2).length) := by
    rw [hlen1]
    decide
  have hcovT : (workerChunks 2 exGrid2).flatten = createArrayParamPermutations exGrid2 := by
    norm_num [workerChunks, chunkLoop, workSizePerThread, numTotalParamSets,
      createArrayParamPermutations, exGrid2]
  have hcov1 : (workerChunks 1 exGrid2).flatten = createArrayParamPermutations exGrid2 := by
    norm_num [workerChunks, chunkLoop, workSizePerThread, numTotalParamSets,
      createArrayParamPermutations, exGrid2]
  ⟨⟨hpT, hp1, hcovT, hcov1⟩,
   partition_preserves_winner_of_coverage (Normalize exData 0 1) exData 0 1 "o" 2 exGrid2
     [1, 0] [0] hpT hp1 hcovT hcov1⟩

/-- Claim C7 (code bug): the claim says the read of the shared best error,
the comparison and the conditional overwrite all happen inside one lock
acquisition.  In the code the comparison
`localOptimalMSE < *globalOptimalMSE` is evaluated BEFORE
`globalParamLock.Lock()`, so the schedule in which both sub-workers
compare against the initial value 100 before either writes is admissible:
sub-worker A (local best 50) writes, then sub-worker B (local best 70)
overwrites — final shared best 70, a lost update.  Under the claimed
read-compare-write-in-one-critical-section discipline every serialization
ends at 50. -/
theorem compare_outside_lock_lost_update :
    (runRacySchedule (100, ⟨.compare, false, 50⟩, ⟨.compare, false, 70⟩)
        [false, true, false, true]).1 = 70 ∧
    runAtomicSchedule 100 [50, 70] = 50 ∧
    runAtomicSchedule 100 [70, 50] = 50 ∧
    (runRacySchedule (100, ⟨.compare, false, 50⟩, ⟨.compare, false, 70⟩)
        [false, true, false, true]).1 ≠ runAtomicSchedule 100 [50, 70] := by
  norm_num [runRacySchedule, stepRacyMerge, runAtomicSchedule, stepAtomicMerge]

/-- Claim C8: gradient descent with learning rate 0 is the identity on the
zero-initialized parameters: for every dataset and every epoch count the
result is `(0, 0)`. -/
theorem zero_learning_rate_identity (d : InputData) (numEpochs : ℚ) :
    runGradientDescent d 0 numEpochs = ⟨0, 0⟩ := by
  unfold runGradientDescent
  apply Function.iterate_fixed
  simp [UpdateParams]

/-- Claim C9: one gradient-descent step returns
`(mu - alpha * gradMu(pred), beta - alpha * gradBeta(pred))` where `pred`
is the single prediction pass computed from the input parameters — i.e.
`UpdateParams` coincides with the simultaneous-update step of the spec;
neither component is computed from the other already-updated component. -/
theorem gradient_step_simultaneous (p : Parameters) (d : InputData) (alpha : ℚ) :
    UpdateParams p d alpha = gradientDescentStepSimultaneous p d alpha ∧
    UpdateParams p d alpha =
      ⟨p.Mu - alpha * calcGradientMu (Forecast p.Mu p.Beta d.X) d.Y,
       p.Beta - alpha * calcGradientBeta (Forecast p.Mu p.Beta d.X) d⟩ :=
  ⟨rfl, rfl⟩

/-- Claim C10: the string-to-number conversion returns a list of the same
length, equal to mapping each entry to its parsed value with unparsable
entries silently replaced by `0` — position `i` of the output is the
parsed value of position `i` of the input (so no entry is skipped,
rejected, or reported). -/
theorem string_to_float_zero_fill (input : List (Option ℚ)) (i : ℕ)
    (hi : i < input.length) :
    (stringToFloat64 input).length = input.length ∧
    stringToFloat64 input = input.map (fun s => s.getD 0) ∧
    (stringToFloat64 input).getD i 1 = (input.getD i none).getD 0 := by
  refine ⟨by rw [stringToFloat64_eq_map]; simp, stringToFloat64_eq_map input, ?_⟩
  rw [stringToFloat64_eq_map]
  rw [List.getD_eq_getElem?_getD, List.getD_eq_getElem?_getD, List.getElem?_map]
  rcases List.getElem?_eq_some_iff.2 ⟨hi, rfl⟩ with h
  rw [h]
  rfl

/-- Witness for C10: the conversion of `[none, some 3]` (an unparsable
string followed by one parsing to 3) at index 0. -/
theorem string_to_float_zero_fill_witness :
    0 < ([none, some 3] : List (Option ℚ)).length ∧
    ((stringToFloat64 [none, some 3]).length
        = ([none, some 3] : List (Option ℚ)).length ∧
     stringToFloat64 [none, some 3]
        = ([none, some 3] : List (Option ℚ)).map (fun s => s.getD 0) ∧
     (stringToFloat64 [none, some 3]).getD 0 1
        = (([none, some 3] : List (Option ℚ)).getD 0 none).getD 0) :=
  ⟨by norm_num, string_to_float_zero_fill [none, some 3] 0 (by norm_num)⟩

end GridSearch
